import Mathlib

/-!
Verification of the your.fun Proof-of-Human SDK core
(`sdk-python/yourfun/proof.py`) against its natural-language specification.

Modelling conventions:
* Python `bytes` / `bytearray` values are lists of naturals; every byte is
  `< 256` in reachable states.  Byte арithmetic `& 0xFF` is `% 256`.
* Indexing a caller-supplied buffer (`nonce[i]`, `hash[i]`) can raise
  `IndexError`, so it is modelled with `List.getElem?` in the `Option`
  monad; `none` stands for a raised exception.  The internal `bytearray(32)`
  result buffer has a fixed length of 32 and is only indexed at `i % 32`
  with `i < 32`, so its reads are modelled with the total `List.getD`.
* Python `float` values are modelled as exact rationals `ℚ`.  The two
  transcendental library functions used by the recorder/aggregator,
  `math.sqrt` and `math.log2`, are taken as parameters `(sqrtQ log2Q : ℚ → ℚ)`
  of the definitions that use them: none of the verified properties depends
  on their values.
* `dict[str, float]` payloads are association lists; all the keys read by
  the aggregator are present on every event built by the `record_*`
  operations, so lookup is modelled with default `0` (matching `dict.get(k, 0)`
  where the code uses a default).
-/

namespace YourFun

/-! ## Challenge solver (`ProofGenerator.solve_challenge`, proof.py lines 189-207) -/

/-- Body of the first loop of `solve_challenge`, at index `i`:
`result[i] = nonce[i] ^ fingerprint_hash[i]`;
`result[i] = (result[i] + nonce[(i + 7) % 32]) & 0xFF`;
`result[i] ^= fingerprint_hash[(i + 13) % 32]`.
Reads of the caller-supplied buffers go through the `Option` monad
(`none` = `IndexError`). -/
def challengeInitStep (nonce fingerprint_hash : List ℕ) (r : List ℕ) (i : ℕ) :
    Option (List ℕ) := do
  let ni ← nonce[i]?
  let hi ← fingerprint_hash[i]?
  let r := r.set i (ni ^^^ hi)
  let n7 ← nonce[(i + 7) % 32]?
  let r := r.set i ((r.getD i 0 + n7) % 256)
  let h13 ← fingerprint_hash[(i + 13) % 32]?
  pure (r.set i (r.getD i 0 ^^^ h13))

/-- The first loop of `solve_challenge`: `result = bytearray(32)`, then the
step body for `i in range(32)`. -/
def challengeInit (nonce fingerprint_hash : List ℕ) : Option (List ℕ) :=
  (List.range 32).foldlM (challengeInitStep nonce fingerprint_hash)
    (List.replicate 32 0)

/-- The second (diffusion) loop of `solve_challenge`: for
`round_num in range(4)`, for `i in range(32)`:
`prev = result[(i + 31) % 32]`; `nxt = result[(i + 1) % 32]`;
`result[i] = (result[i] + ((prev * nxt) & 0xFF) + round_num) & 0xFF`. -/
def diffuse (r0 : List ℕ) : List ℕ :=
  (List.range 4).foldl (fun r round_num =>
    (List.range 32).foldl (fun r i =>
      let prev := r.getD ((i + 31) % 32) 0
      let nxt := r.getD ((i + 1) % 32) 0
      r.set i ((r.getD i 0 + ((prev * nxt) % 256) + round_num) % 256)) r) r0

/-- `ProofGenerator.solve_challenge`: the initial mix followed by the four
diffusion rounds; `none` models an `IndexError` escaping the first loop. -/
def solve_challenge (nonce fingerprint_hash : List ℕ) : Option (List ℕ) :=
  (challengeInit nonce fingerprint_hash).map diffuse

/-! Claim-side formulation of the mixing algorithm, written from the
specification text of §4.4: the initial mix produces, for each `i`,
`r[i] = ((nonce[i] XOR hash[i]) + nonce[(i+7) mod 32]) mod 256 XOR hash[(i+13) mod 32]`,
and each diffusion round updates `r` in place in ascending index order, a read
within a round observing every update already made earlier in that round. -/

/-- Specified value of byte `i` after the initial mix (spec §4.4, first loop). -/
def claimInitByte (nonce fingerprint_hash : List ℕ) (i : ℕ) : ℕ :=
  (((nonce.getD i 0 ^^^ fingerprint_hash.getD i 0) + nonce.getD ((i + 7) % 32) 0) % 256)
    ^^^ fingerprint_hash.getD ((i + 13) % 32) 0

/-- Specified initial-mix buffer (spec §4.4): byte `i` is `claimInitByte i`. -/
def claimInit (nonce fingerprint_hash : List ℕ) : List ℕ :=
  (List.range 32).map (claimInitByte nonce fingerprint_hash)

/-- Specified single in-place update at index `i` during a diffusion round:
`r[i] = (r[i] + ((r[(i+31) mod 32] * r[(i+1) mod 32]) mod 256) + round) mod 256`,
reading the current (partially updated) buffer. -/
def claimRoundStep (round : ℕ) (r : List ℕ) (i : ℕ) : List ℕ :=
  r.set i ((r.getD i 0 + ((r.getD ((i + 31) % 32) 0 * r.getD ((i + 1) % 32) 0) % 256) + round) % 256)

/-- Specified diffusion round: indices `0..31` processed sequentially in
place, so each read observes updates already made earlier in the round. -/
def claimRound (round : ℕ) (r : List ℕ) : List ℕ :=
  (List.range 32).foldl (claimRoundStep round) r

/-- Specified `solve_challenge` output: initial mix, then diffusion rounds
`0, 1, 2, 3` in order (spec §4.4). -/
def claimSolve (nonce fingerprint_hash : List ℕ) : List ℕ :=
  (List.range 4).foldl (fun r round => claimRound round r)
    (claimInit nonce fingerprint_hash)

/-- Partially filled initial-mix buffer: the first `k` bytes hold their
specified values, the rest still hold the `bytearray(32)` zeros. -/
def claimInitPartial (nonce fingerprint_hash : List ℕ) (k : ℕ) : List ℕ :=
  (List.range 32).map (fun i => if i < k then claimInitByte nonce fingerprint_hash i else 0)

/-! ## SHA-256 (model of `hashlib.sha256`, FIPS 180-4)

`generate_fingerprint` hashes its 52-byte metrics buffer with the standard
library's SHA-256; the function is modelled here concretely so that the
fingerprint contract is executable. -/

/-- Truncate to a 32-bit word. -/
def w32 (x : ℕ) : ℕ := x % 4294967296

/-- Right rotation of a 32-bit word by `n` bits. -/
def rotr32 (n x : ℕ) : ℕ := w32 ((x >>> n) ||| (x <<< (32 - n)))

/-- SHA-256 `Ch(e, f, g)`; complement taken inside 32 bits. -/
def sha2Ch (e f g : ℕ) : ℕ := (e &&& f) ^^^ ((e ^^^ 4294967295) &&& g)

/-- SHA-256 `Maj(a, b, c)`. -/
def sha2Maj (a b c : ℕ) : ℕ := (a &&& b) ^^^ (a &&& c) ^^^ (b &&& c)

/-- SHA-256 big sigma-0. -/
def sha2S0 (x : ℕ) : ℕ := rotr32 2 x ^^^ rotr32 13 x ^^^ rotr32 22 x

/-- SHA-256 big sigma-1. -/
def sha2S1 (x : ℕ) : ℕ := rotr32 6 x ^^^ rotr32 11 x ^^^ rotr32 25 x

/-- SHA-256 small sigma-0. -/
def sha2s0 (x : ℕ) : ℕ := rotr32 7 x ^^^ rotr32 18 x ^^^ (x >>> 3)

/-- SHA-256 small sigma-1. -/
def sha2s1 (x : ℕ) : ℕ := rotr32 17 x ^^^ rotr32 19 x ^^^ (x >>> 10)

/-- The 64 SHA-256 round constants (FIPS 180-4 §4.2.2, in decimal). -/
def sha256K : List ℕ :=
  [1116352408, 1899447441, 3049323471, 3921009573, 961987163,
   1508970993, 2453635748, 2870763221, 3624381080, 310598401,
   607225278, 1426881987, 1925078388, 2162078206, 2614888103,
   3248222580, 3835390401, 4022224774, 264347078, 604807628,
   770255983, 1249150122, 1555081692, 1996064986, 2554220882,
   2821834349, 2952996808, 3210313671, 3336571891, 3584528711,
   113926993, 338241895, 666307205, 773529912, 1294757372,
   1396182291, 1695183700, 1986661051, 2177026350, 2456956037,
   2730485921, 2820302411, 3259730800, 3345764771, 3516065817,
   3600352804, 4094571909, 275423344, 430227734, 506948616,
   659060556, 883997877, 958139571, 1322822218, 1537002063,
   1747873779, 1955562222, 2024104815, 2227730452, 2361852424,
   2428436474, 2756734187, 3204031479, 3329325298]

/-- The eight SHA-256 working variables. -/
structure Sha256State where
  a : ℕ
  b : ℕ
  c : ℕ
  d : ℕ
  e : ℕ
  f : ℕ
  g : ℕ
  h : ℕ

/-- SHA-256 initial hash value (FIPS 180-4 §5.3.3, in decimal). -/
def sha256IV : Sha256State :=
  ⟨1779033703, 3144134277, 1013904242, 2773480762,
   1359893119, 2600822924, 528734635, 1541459225⟩

/-- Group a big-endian byte list into 32-bit words. -/
def bytesToWords : List ℕ → List ℕ
  | b0 :: b1 :: b2 :: b3 :: rest =>
      (b0 * 16777216 + b1 * 65536 + b2 * 256 + b3) :: bytesToWords rest
  | _ => []

/-- Extend the 16 words of a block to the 64-word message schedule. -/
def sha256Schedule (ws0 : List ℕ) : List ℕ :=
  (List.range 48).foldl (fun ws j =>
    let i := j + 16
    ws ++ [w32 (sha2s1 (ws.getD (i - 2) 0) + ws.getD (i - 7) 0
                + sha2s0 (ws.getD (i - 15) 0) + ws.getD (i - 16) 0)]) ws0

/-- Compress one 16-word block into the running state. -/
def sha256Compress (st : Sha256State) (block : List ℕ) : Sha256State :=
  let ws := sha256Schedule block
  let t := (List.range 64).foldl (fun s i =>
    let t1 := w32 (s.h + sha2S1 s.e + sha2Ch s.e s.f s.g + sha256K.getD i 0 + ws.getD i 0)
    let t2 := w32 (sha2S0 s.a + sha2Maj s.a s.b s.c)
    ⟨w32 (t1 + t2), s.a, s.b, s.c, w32 (s.d + t1), s.e, s.f, s.g⟩) st
  ⟨w32 (st.a + t.a), w32 (st.b + t.b), w32 (st.c + t.c), w32 (st.d + t.d),
   w32 (st.e + t.e), w32 (st.f + t.f), w32 (st.g + t.g), w32 (st.h + t.h)⟩

/-- Big-endian 4-byte encoding of a 32-bit value. -/
def be32Bytes (x : ℕ) : List ℕ :=
  [x / 16777216 % 256, x / 65536 % 256, x / 256 % 256, x % 256]

/-- Big-endian 8-byte encoding of a 64-bit value. -/
def be64Bytes (x : ℕ) : List ℕ :=
  [x / 72057594037927936 % 256, x / 281474976710656 % 256, x / 1099511627776 % 256,
   x / 4294967296 % 256, x / 16777216 % 256, x / 65536 % 256, x / 256 % 256, x % 256]

/-- SHA-256 padding: the `0x80` byte, zeros to 56 mod 64, then the 64-bit
big-endian bit length. -/
def sha256Pad (msg : List ℕ) : List ℕ :=
  msg ++ [128] ++ List.replicate ((119 - msg.length % 64) % 64) 0 ++ be64Bytes (8 * msg.length)

/-- SHA-256 digest of a byte list: 32 bytes. -/
def sha256 (msg : List ℕ) : List ℕ :=
  let padded := sha256Pad msg
  let final := (List.range (padded.length / 64)).foldl
    (fun st bi => sha256Compress st (bytesToWords ((padded.drop (64 * bi)).take 64)))
    sha256IV
  be32Bytes final.a ++ be32Bytes final.b ++ be32Bytes final.c ++ be32Bytes final.d
    ++ be32Bytes final.e ++ be32Bytes final.f ++ be32Bytes final.g ++ be32Bytes final.h

/-! ## Fingerprint serialization (`ProofGenerator.generate_fingerprint`, proof.py lines 161-183)

`struct.pack(">dddddId", ...)` depends on its `float` arguments only through
their IEEE-754 binary64 bit patterns, so the metrics record is modelled here
by those bit patterns (naturals `< 2^64`) together with the `u32` event
count. -/

/-- `BehavioralMetrics` as serialized: the six `f64` fields are carried as
their IEEE-754 binary64 bit patterns, `total_events` as a natural. -/
structure MetricsBits where
  keystroke_timing_variance : ℕ
  mouse_movement_entropy : ℕ
  scroll_pattern_score : ℕ
  focus_switch_frequency : ℕ
  idle_pattern_score : ℕ
  total_events : ℕ
  session_duration_ms : ℕ

/-- `struct.pack(">dddddId", kv, me, ss, ff, ip, te, sd)`: big-endian, no
padding; `struct.error` (modelled `none`) when the `I` field does not fit in
an unsigned 32-bit integer. -/
def packMetrics (m : MetricsBits) : Option (List ℕ) :=
  if m.total_events < 4294967296 then
    some (be64Bytes m.keystroke_timing_variance ++ be64Bytes m.mouse_movement_entropy
      ++ be64Bytes m.scroll_pattern_score ++ be64Bytes m.focus_switch_frequency
      ++ be64Bytes m.idle_pattern_score ++ be32Bytes m.total_events
      ++ be64Bytes m.session_duration_ms)
  else none

/-- The `hash_bytes` field of `generate_fingerprint`: SHA-256 of the packed
metrics buffer. -/
def fingerprint_hash_bytes (m : MetricsBits) : Option (List ℕ) :=
  (packMetrics m).map sha256

/-- Canonical 52-byte layout from spec §4.3, written from the spec text:
`[f64 variance][f64 entropy][f64 scroll_score][f64 focus_freq][f64 idle_score][u32 total_events][f64 session_duration_ms]`,
each field big-endian, no padding. -/
def specMetricsBuffer (m : MetricsBits) : List ℕ :=
  be64Bytes m.keystroke_timing_variance ++ be64Bytes m.mouse_movement_entropy
    ++ be64Bytes m.scroll_pattern_score ++ be64Bytes m.focus_switch_frequency
    ++ be64Bytes m.idle_pattern_score ++ be32Bytes m.total_events
    ++ be64Bytes m.session_duration_ms

/-! ## Behavioral events and the recorder (`proof.py` lines 17-128, 221-224)

Python floats are exact rationals here; `math.sqrt` is the parameter
`sqrtQ`. -/

/-- `BehavioralEvent`: event type tag, timestamp, and the per-event data
dictionary (an association list of field name to value). -/
structure BehavioralEvent where
  event_type : String
  timestamp : ℚ
  data : List (String × ℚ)
deriving DecidableEq

/-- Read a field of an event data dictionary.  Every key the aggregator reads
is present on the events the `record_*` operations build; the default `0`
matches `dict.get(key, 0)` at the one place the code uses a default. -/
def dget (d : List (String × ℚ)) (k : String) : ℚ :=
  (d.lookup k).getD 0

/-- `ProofGenerator` state: the event log and the session-start clock. -/
structure ProofGenerator where
  events : List BehavioralEvent
  session_start : ℚ
deriving DecidableEq

/-- `ProofGenerator.record_keystroke(key_down_time, key_up_time)`:
`hold_duration = up - down`; `interval = down - self._events[-1].timestamp`
if the log is nonempty else `0`; appends a `"keystroke"` event. -/
def record_keystroke (g : ProofGenerator) (key_down_time key_up_time : ℚ) : ProofGenerator :=
  let hold_duration := key_up_time - key_down_time
  let interval : ℚ :=
    match g.events.getLast? with
    | none => 0
    | some e => key_down_time - e.timestamp
  { g with events := g.events ++ [⟨"keystroke", key_down_time,
      [("hold_duration", hold_duration), ("interval", interval), ("key_up_time", key_up_time)]⟩] }

/-- `ProofGenerator._get_last_event_of_type`: scan the full log backward for
the most recent event of the given type. -/
def get_last_event_of_type (events : List BehavioralEvent) (event_type : String) :
    Option BehavioralEvent :=
  events.reverse.find? (fun e => e.event_type == event_type)

/-- `ProofGenerator.record_mouse_movement(x, y, timestamp)`: velocity and
acceleration derived from the most recent `"mouse"` event when `dt > 0`. -/
def record_mouse_movement (sqrtQ : ℚ → ℚ) (g : ProofGenerator) (x y timestamp : ℚ) :
    ProofGenerator :=
  let va : ℚ × ℚ :=
    match get_last_event_of_type g.events "mouse" with
    | none => (0, 0)
    | some last_mouse =>
      let dt := timestamp - last_mouse.timestamp
      if dt > 0 then
        let dx := x - dget last_mouse.data "x"
        let dy := y - dget last_mouse.data "y"
        let velocity := sqrtQ (dx * dx + dy * dy) / dt
        let prev_velocity := dget last_mouse.data "velocity"
        let acceleration := if prev_velocity > 0 then (velocity - prev_velocity) / dt else 0
        (velocity, acceleration)
      else (0, 0)
  { g with events := g.events ++ [⟨"mouse", timestamp,
      [("x", x), ("y", y), ("velocity", va.1), ("acceleration", va.2)]⟩] }

/-- `ProofGenerator.record_scroll(delta_y, timestamp)`. -/
def record_scroll (g : ProofGenerator) (delta_y timestamp : ℚ) : ProofGenerator :=
  { g with events := g.events ++ [⟨"scroll", timestamp,
      [("delta_y", delta_y), ("intensity", |delta_y|)]⟩] }

/-- `ProofGenerator.record_focus_change(has_focus, timestamp)`. -/
def record_focus_change (g : ProofGenerator) (has_focus : Bool) (timestamp : ℚ) :
    ProofGenerator :=
  { g with events := g.events ++ [⟨"focus", timestamp,
      [("has_focus", if has_focus then 1 else 0)]⟩] }

/-- `ProofGenerator.record_idle_period(start_time, end_time)`. -/
def record_idle_period (g : ProofGenerator) (start_time end_time : ℚ) : ProofGenerator :=
  { g with events := g.events ++ [⟨"idle", start_time,
      [("duration", end_time - start_time)]⟩] }

/-- `ProofGenerator.reset()`: clears the log and re-captures the session
start (`now` models `time.time() * 1000`). -/
def reset (_g : ProofGenerator) (now : ℚ) : ProofGenerator :=
  { events := [], session_start := now }

/-! ## Metric computations (`proof.py` lines 130-159, 228-328)

`math.log2` is the parameter `log2Q`. -/

/-- `ProofGenerator._compute_variance`: sample variance, `0` for fewer than
two samples. -/
def compute_variance (values : List ℚ) : ℚ :=
  if values.length < 2 then 0
  else
    let mean := values.sum / (values.length : ℚ)
    ((values.map (fun v => (v - mean) ^ 2)).sum) / ((values.length : ℚ) - 1)

/-- Python `int()` truncation toward zero. -/
def pyInt (q : ℚ) : ℤ :=
  if 0 ≤ q then ⌊q⌋ else -⌊-q⌋

/-- Minimum of a value list, Python `min(values)` on a nonempty list. -/
def listMinQ : List ℚ → ℚ
  | [] => 0
  | v :: vs => vs.foldl min v

/-- Maximum of a value list, Python `max(values)` on a nonempty list. -/
def listMaxQ : List ℚ → ℚ
  | [] => 0
  | v :: vs => vs.foldl max v

/-- `ProofGenerator._compute_entropy`: Shannon entropy (in bits, via `log2Q`)
of a 20-bin histogram of the values; `0` for fewer than two samples.  The
histogram index `min(int(((value - min_val) / range_val) * 20), 19)` is
nonnegative because `min_val` is the minimum of the list, so the `Int.toNat`
cast is exact. -/
def compute_entropy (log2Q : ℚ → ℚ) (values : List ℚ) : ℚ :=
  if values.length < 2 then 0
  else
    let bin_count : ℕ := 20
    let min_val := listMinQ values
    let max_val := listMaxQ values
    let range_val := if max_val ≠ min_val then max_val - min_val else 1
    let bins := values.foldl (fun bins value =>
      let bin_idx := min (pyInt ((value - min_val) / range_val * (bin_count : ℚ))).toNat
        (bin_count - 1)
      bins.set bin_idx (bins.getD bin_idx 0 + 1)) (List.replicate bin_count (0 : ℕ))
    let n := values.length
    bins.foldl (fun entropy count =>
      if count > 0 then entropy - ((count : ℚ) / n) * log2Q ((count : ℚ) / n) else entropy) 0

/-- Scroll direction as classified by `_compute_scroll_pattern`:
`1 if delta_y > 0 else -1`. -/
def scrollDir (delta_y : ℚ) : ℤ :=
  if delta_y > 0 then 1 else -1

/-- One step of the direction-change loop: state is
`(prev_direction, direction_changes)`. -/
def scrollStep (s : ℤ × ℕ) (delta_y : ℚ) : ℤ × ℕ :=
  (scrollDir delta_y,
   if s.1 ≠ 0 ∧ scrollDir delta_y ≠ s.1 then s.2 + 1 else s.2)

/-- The direction-change count of `_compute_scroll_pattern`, as a function of
the `delta_y` sequence: `prev_direction` starts at `0`, the counter at `0`. -/
def directionChanges (deltas : List ℚ) : ℕ :=
  (deltas.foldl scrollStep (0, 0)).2

/-- `ProofGenerator._compute_scroll_pattern`: `0` for fewer than three scroll
events, else `change_ratio * 50 + min(intensity_variance / 100, 50)`. -/
def compute_scroll_pattern (scroll_events : List BehavioralEvent) : ℚ :=
  if scroll_events.length < 3 then 0
  else
    let changes := directionChanges (scroll_events.map (fun e => dget e.data "delta_y"))
    let intensities := scroll_events.map (fun e => dget e.data "intensity")
    let intensity_variance := compute_variance intensities
    ((changes : ℚ) / (scroll_events.length : ℚ)) * 50 + min (intensity_variance / 100) 50

/-- `ProofGenerator._compute_idle_pattern`: `100.0` with no idle events, else
`(1 - idle_ratio) * 70 + min(duration_variance / 10000, 30)`. -/
def compute_idle_pattern (idle_events : List BehavioralEvent) (session_duration_ms : ℚ) : ℚ :=
  if idle_events.isEmpty then 100
  else
    let total_idle := (idle_events.map (fun e => dget e.data "duration")).sum
    let durations := idle_events.map (fun e => dget e.data "duration")
    let duration_variance := compute_variance durations
    let base_score := (1 - total_idle / max session_duration_ms 1) * 70
    let variance_bonus := min (duration_variance / 10000) 30
    base_score + variance_bonus

/-- Aggregated metrics record (`BehavioralMetrics`), float fields as exact
rationals. -/
structure BehavioralMetrics where
  keystroke_timing_variance : ℚ
  mouse_movement_entropy : ℚ
  scroll_pattern_score : ℚ
  focus_switch_frequency : ℚ
  idle_pattern_score : ℚ
  total_events : ℕ
  session_duration_ms : ℚ
deriving DecidableEq

/-- `ProofGenerator.compute_metrics`: `now` models `time.time() * 1000`. -/
def compute_metrics (log2Q : ℚ → ℚ) (g : ProofGenerator) (now : ℚ) : BehavioralMetrics :=
  let session_duration_ms := now - g.session_start
  let keystrokes := g.events.filter (fun e => e.event_type == "keystroke")
  let intervals := (keystrokes.filter (fun e => decide (dget e.data "interval" > 0))).map
    (fun e => dget e.data "interval")
  let keystroke_variance := compute_variance intervals
  let mouse_events := g.events.filter (fun e => e.event_type == "mouse")
  let velocities := mouse_events.map (fun e => dget e.data "velocity")
  let mouse_entropy := compute_entropy log2Q velocities
  let scroll_events := g.events.filter (fun e => e.event_type == "scroll")
  let scroll_score := compute_scroll_pattern scroll_events
  let focus_events := g.events.filter (fun e => e.event_type == "focus")
  let focus_freq := (focus_events.length : ℚ) / max (session_duration_ms / 1000) (1 / 1000)
  let idle_events := g.events.filter (fun e => e.event_type == "idle")
  let idle_score := compute_idle_pattern idle_events session_duration_ms
  { keystroke_timing_variance := keystroke_variance
    mouse_movement_entropy := mouse_entropy
    scroll_pattern_score := scroll_score
    focus_switch_frequency := focus_freq
    idle_pattern_score := idle_score
    total_events := g.events.length
    session_duration_ms := session_duration_ms }

/-- `ProofGenerator._compute_confidence`: fixed point awards, capped at 100. -/
def compute_confidence (m : BehavioralMetrics) : ℚ :=
  let score : ℚ :=
    (if m.total_events ≥ 100 then 20 else if m.total_events ≥ 50 then 10 else 0)
    + (if m.session_duration_ms ≥ 30000 then 20 else if m.session_duration_ms ≥ 10000 then 10 else 0)
    + (if m.keystroke_timing_variance > 1000 then 15 else 0)
    + (if m.mouse_movement_entropy > 2 then 15 else 0)
    + (if m.scroll_pattern_score > 30 then 10 else 0)
    + (if 0.05 < m.focus_switch_frequency ∧ m.focus_switch_frequency < 2 then 10 else 0)
    + (if m.idle_pattern_score > 50 then 10 else 0)
  min score 100

/-! ## Helper lemmas -/

/-- An if-then-else of two nonnegative rationals is nonnegative. -/
theorem ite_nonneg (p : Prop) [Decidable p] (a b : ℚ) (ha : 0 ≤ a) (hb : 0 ≤ b) :
    0 ≤ if p then a else b := by
  split <;> assumption

/-- A list of nonnegative rationals with zero sum is all zeros. -/
theorem sum_zero_all_zero : ∀ (l : List ℚ), (∀ x ∈ l, 0 ≤ x) → l.sum = 0 → ∀ x ∈ l, x = 0 := by
  intro l
  induction l with
  | nil => intro _ _ x hx; cases hx
  | cons a t ih =>
    intro hnn hsum x hx
    have hat : 0 ≤ a := hnn a (List.mem_cons_self a t)
    have htn : ∀ y ∈ t, 0 ≤ y := fun y hy => hnn y (List.mem_cons_of_mem a hy)
    have hts : 0 ≤ t.sum := List.sum_nonneg htn
    have hsum' : a + t.sum = 0 := by simpa using hsum
    have ha0 : a = 0 := by linarith
    have ht0 : t.sum = 0 := by linarith
    rcases List.mem_cons.mp hx with rfl | hx
    · exact ha0
    · exact ih htn ht0 x hx

/-- The sample variance of a list of zeros is zero. -/
theorem compute_variance_zeros (l : List ℚ) (h : ∀ x ∈ l, x = 0) : compute_variance l = 0 := by
  unfold compute_variance
  split
  · rfl
  · have hsum : l.sum = 0 := List.sum_eq_zero h
    have hsq : (l.map (fun v => (v - l.sum / (l.length : ℚ)) ^ 2)).sum = 0 := by
      apply List.sum_eq_zero
      intro x hx
      rcases List.mem_map.mp hx with ⟨v, hv, rfl⟩
      rw [h v hv, hsum]
      simp
    show ((l.map (fun v => (v - l.sum / (l.length : ℚ)) ^ 2)).sum) / ((l.length : ℚ) - 1) = 0
    rw [hsq]
    simp

/-- The sample variance is nonnegative. -/
theorem compute_variance_nonneg (l : List ℚ) : 0 ≤ compute_variance l := by
  unfold compute_variance
  split
  · exact le_refl 0
  · rename_i hlen
    apply div_nonneg
    · apply List.sum_nonneg
      intro x hx
      rcases List.mem_map.mp hx with ⟨v, _, rfl⟩
      exact sq_nonneg _
    · have h2 : 2 ≤ l.length := Nat.le_of_not_lt hlen
      have h2q : (2 : ℚ) ≤ (l.length : ℚ) := by exact_mod_cast h2
      linarith

/-- Unfolding lemma: the `focus_switch_frequency` field of `compute_metrics`
is the focus-event count over `max(session_duration/1000, 0.001)`. -/
theorem focus_freq_formula (log2Q : ℚ → ℚ) (g : ProofGenerator) (now : ℚ) :
    (compute_metrics log2Q g now).focus_switch_frequency
      = ((g.events.filter (fun e => e.event_type == "focus")).length : ℚ)
        / max ((now - g.session_start) / 1000) (1 / 1000) := rfl

set_option maxRecDepth 100000 in
/-- Sanity anchor for the SHA-256 model: digest of the empty message matches
the published FIPS 180-4 value `e3b0c442...b855`. -/
theorem sha256_empty_vector :
    sha256 [] = [227, 176, 196, 66, 152, 252, 28, 20, 154, 251, 244, 200,
      153, 111, 185, 36, 39, 174, 65, 228, 100, 155, 147, 76,
      164, 149, 153, 27, 120, 82, 184, 85] := by
  decide

/-- A successful Python read `buf[i]` (for `i` in range) returns the same
value as the total `getD` access. -/
theorem getElem?_eq_some_getD (l : List ℕ) (i : ℕ) (h : i < l.length) :
    l[i]? = some (l.getD i 0) := by
  rw [List.getD_eq_getElem?_getD, List.getElem?_eq_getElem h]
  rfl

/-- Reading back an in-range `set` through `getD`. -/
theorem getD_set_self32 {l : List ℕ} {i a : ℕ} (hl : l.length = 32) (hi : i < 32) :
    (l.set i a).getD i 0 = a := by
  rw [List.getD_eq_getElem?_getD, List.getElem?_set_self (by omega)]
  rfl

/-- `claimInitPartial` always has 32 bytes. -/
theorem claimInitPartial_length (nonce hash : List ℕ) (k : ℕ) :
    (claimInitPartial nonce hash k).length = 32 := by
  simp [claimInitPartial]

/-- Before any step runs, the partial buffer is the `bytearray(32)` zeros. -/
theorem claimInitPartial_zero (nonce hash : List ℕ) :
    claimInitPartial nonce hash 0 = List.replicate 32 0 := by
  simp [claimInitPartial]

/-- Writing byte `k` of the partial buffer extends it by one position. -/
theorem claimInitPartial_step (nonce hash : List ℕ) (k : ℕ) (hk : k < 32) :
    (claimInitPartial nonce hash k).set k (claimInitByte nonce hash k)
      = claimInitPartial nonce hash (k + 1) := by
  apply List.ext_getElem
  · simp [claimInitPartial]
  · intro j hj1 hj2
    by_cases hjk : j = k
    · subst hjk
      rw [List.getElem_set_self]
      unfold claimInitPartial
      rw [List.getElem_map, List.getElem_range]
      rw [if_pos (by omega)]
    · rw [List.getElem_set_ne (fun h => hjk h.symm)]
      unfold claimInitPartial
      rw [List.getElem_map, List.getElem_map, List.getElem_range]
      by_cases hlt : j < k
      · rw [if_pos hlt, if_pos (by omega)]
      · rw [if_neg hlt, if_neg (by omega)]

/-- The whole partial buffer is the specified initial mix. -/
theorem claimInitPartial_full (nonce hash : List ℕ) :
    claimInitPartial nonce hash 32 = claimInit nonce hash := by
  unfold claimInitPartial claimInit
  apply List.map_congr_left
  intro i hi
  rw [if_pos (List.mem_range.mp hi)]

/-- With 32-byte buffers, the loop body at index `i < 32` succeeds and writes
exactly the specified initial-mix byte. -/
theorem challengeInitStep_eval (nonce hash : List ℕ) (hn : nonce.length = 32)
    (hh : hash.length = 32) (r : List ℕ) (hr : r.length = 32) (i : ℕ) (hi : i < 32) :
    challengeInitStep nonce hash r i = some (r.set i (claimInitByte nonce hash i)) := by
  have hi_n : i < nonce.length := by omega
  have hi_h : i < hash.length := by omega
  have h7 : (i + 7) % 32 < nonce.length := by rw [hn]; exact Nat.mod_lt _ (by norm_num)
  have h13 : (i + 13) % 32 < hash.length := by rw [hh]; exact Nat.mod_lt _ (by norm_num)
  unfold challengeInitStep
  rw [getElem?_eq_some_getD nonce i hi_n, getElem?_eq_some_getD hash i hi_h,
      getElem?_eq_some_getD nonce _ h7, getElem?_eq_some_getD hash _ h13]
  simp only [Option.bind_eq_bind, Option.some_bind, Option.pure_def]
  have hr2 : (r.set i (nonce.getD i 0 ^^^ hash.getD i 0)).length = 32 := by
    simp [hr]
  rw [getD_set_self32 hr hi, getD_set_self32 hr2 hi, List.set_set, List.set_set]
  rfl

/-- The first loop, run over `range k`, fills the first `k` specified
bytes. -/
theorem challengeInit_fold (nonce hash : List ℕ) (hn : nonce.length = 32)
    (hh : hash.length = 32) :
    ∀ k, k ≤ 32 → (List.range k).foldlM (challengeInitStep nonce hash) (List.replicate 32 0)
      = some (claimInitPartial nonce hash k) := by
  intro k
  induction k with
  | zero =>
    intro _
    rw [claimInitPartial_zero]
    rfl
  | succ k ih =>
    intro hk1
    have hk : k < 32 := by omega
    rw [List.range_succ, List.foldlM_append, ih (by omega)]
    simp only [Option.bind_eq_bind, Option.some_bind, List.foldlM,
      challengeInitStep_eval nonce hash hn hh (claimInitPartial nonce hash k)
        (claimInitPartial_length nonce hash k) k hk, Option.pure_def]
    rw [claimInitPartial_step nonce hash k hk]

/-- On 32-byte inputs the first loop of `solve_challenge` succeeds and
produces exactly the specified initial mix. -/
theorem challengeInit_eq (nonce hash : List ℕ) (hn : nonce.length = 32)
    (hh : hash.length = 32) :
    challengeInit nonce hash = some (claimInit nonce hash) := by
  unfold challengeInit
  rw [challengeInit_fold nonce hash hn hh 32 (le_refl 32), claimInitPartial_full]

/-- The diffusion loop of the code is definitionally the specified sequential
in-place rounds. -/
theorem diffuse_eq_claimRounds (r : List ℕ) :
    diffuse r = (List.range 4).foldl (fun s round => claimRound round s) r := rfl

/-- One specified round step preserves the buffer length. -/
theorem foldl_claimRoundStep_length (round : ℕ) (is : List ℕ) :
    ∀ r : List ℕ, (is.foldl (claimRoundStep round) r).length = r.length := by
  induction is with
  | nil => intro r; rfl
  | cons i t ih =>
    intro r
    rw [List.foldl_cons, ih]
    simp [claimRoundStep]

/-- Any sequence of specified diffusion rounds preserves the buffer
length. -/
theorem foldl_claimRound_length (rs : List ℕ) :
    ∀ r : List ℕ, ((rs.foldl (fun s round => claimRound round s) r)).length = r.length := by
  induction rs with
  | nil => intro r; rfl
  | cons a t ih =>
    intro r
    rw [List.foldl_cons, ih]
    unfold claimRound
    rw [foldl_claimRoundStep_length]

/-- The specified `solve_challenge` output has 32 bytes. -/
theorem claimSolve_length (nonce hash : List ℕ) : (claimSolve nonce hash).length = 32 := by
  unfold claimSolve
  rw [foldl_claimRound_length]
  simp [claimInit]

/-! ## Claim theorems -/

/-- C6: for every `BehavioralMetrics` value, including adversarial extremes,
the confidence computed by `_compute_confidence` lies in the closed interval
`[0, 100]`. -/
theorem compute_confidence_bounds (m : BehavioralMetrics) :
    0 ≤ compute_confidence m ∧ compute_confidence m ≤ 100 := by
  unfold compute_confidence
  constructor
  · apply le_min
    · repeat' apply add_nonneg
      all_goals repeat' apply ite_nonneg
      all_goals norm_num
    · norm_num
  · apply min_le_right

/-- C9: the event log is append-only within a session and `reset` is the only
operation that clears it: each `record_*` operation appends exactly one event,
preserving all previously recorded events and the session-start clock, while
`reset` empties the log and re-captures the session start. -/
theorem event_log_append_only (sqrtQ : ℚ → ℚ) (g : ProofGenerator)
    (d u x y t dy ts ft st en now : ℚ) (hf : Bool) :
    ((record_keystroke g d u).events.length = g.events.length + 1
      ∧ (record_keystroke g d u).events.take g.events.length = g.events
      ∧ (record_keystroke g d u).session_start = g.session_start)
    ∧ ((record_mouse_movement sqrtQ g x y t).events.length = g.events.length + 1
      ∧ (record_mouse_movement sqrtQ g x y t).events.take g.events.length = g.events
      ∧ (record_mouse_movement sqrtQ g x y t).session_start = g.session_start)
    ∧ ((record_scroll g dy ts).events.length = g.events.length + 1
      ∧ (record_scroll g dy ts).events.take g.events.length = g.events
      ∧ (record_scroll g dy ts).session_start = g.session_start)
    ∧ ((record_focus_change g hf ft).events.length = g.events.length + 1
      ∧ (record_focus_change g hf ft).events.take g.events.length = g.events
      ∧ (record_focus_change g hf ft).session_start = g.session_start)
    ∧ ((record_idle_period g st en).events.length = g.events.length + 1
      ∧ (record_idle_period g st en).events.take g.events.length = g.events
      ∧ (record_idle_period g st en).session_start = g.session_start)
    ∧ ((reset g now).events = [] ∧ (reset g now).session_start = now) := by
  refine ⟨⟨?_, ?_, rfl⟩, ⟨?_, ?_, rfl⟩, ⟨?_, ?_, rfl⟩, ⟨?_, ?_, rfl⟩, ⟨?_, ?_, rfl⟩, rfl, rfl⟩ <;>
    simp [record_keystroke, record_mouse_movement, record_scroll, record_focus_change,
      record_idle_period, List.take_left]

/-- C3 counterexample: after recording a scroll at timestamp 5 into a fresh
generator (so the log contains no keystroke), `record_keystroke 10 12` appends
a keystroke whose interval is `10 - 5 = 5`, not the `0` the claim requires
when no keystroke was previously recorded: the code reads the timestamp of
the last event of any type (`self._events[-1]`). -/
theorem record_keystroke_interval_uses_any_event :
    (((record_keystroke (record_scroll ⟨[], 0⟩ 1 5) 10 12).events.getLast?).map
      (fun e => dget e.data "interval")) = some 5
    ∧ (record_scroll ⟨[], 0⟩ 1 5).events.filter (fun e => e.event_type == "keystroke") = []
    ∧ (5 : ℚ) ≠ 0 := by
  refine ⟨?_, by simp [record_scroll], by norm_num⟩
  norm_num [record_keystroke, record_scroll, dget, List.lookup]
  rfl

/-- C3 (amended): the appended keystroke event has interval equal to `down`
minus the timestamp of the most recent previously recorded event of any kind,
or `0` when the log is empty. -/
theorem record_keystroke_interval_last_any_event (g : ProofGenerator) (d u : ℚ) :
    ((record_keystroke g d u).events.getLast?).map (fun e => dget e.data "interval")
      = some (match g.events.getLast? with
        | none => 0
        | some e => d - e.timestamp) := by
  simp [record_keystroke, dget, List.lookup]

/-- C5 (amended): for a fixed event log, two `compute_metrics` calls with
different wall-clock values agree on `keystroke_timing_variance`,
`mouse_movement_entropy`, `scroll_pattern_score` and `total_events`;
`focus_switch_frequency` and `idle_pattern_score` may change, being computed
from the wall-clock-derived session duration. -/
theorem compute_metrics_clock_free_fields (log2Q : ℚ → ℚ) (g : ProofGenerator) (now1 now2 : ℚ) :
    (compute_metrics log2Q g now1).keystroke_timing_variance
        = (compute_metrics log2Q g now2).keystroke_timing_variance
    ∧ (compute_metrics log2Q g now1).mouse_movement_entropy
        = (compute_metrics log2Q g now2).mouse_movement_entropy
    ∧ (compute_metrics log2Q g now1).scroll_pattern_score
        = (compute_metrics log2Q g now2).scroll_pattern_score
    ∧ (compute_metrics log2Q g now1).total_events
        = (compute_metrics log2Q g now2).total_events :=
  ⟨rfl, rfl, rfl, rfl⟩

/-- C5 counterexample: with a single focus event and `session_start = 0`, the
calls at `now = 2000` and `now = 4000` return different
`focus_switch_frequency` values (`1/2` versus `1/4`), so the two metrics do
not agree on every field except `session_duration_ms`. -/
theorem compute_metrics_focus_freq_clock_dependent :
    (compute_metrics (fun _ => 0) ⟨[⟨"focus", 1, [("has_focus", 1)]⟩], 0⟩ 2000).focus_switch_frequency
    ≠ (compute_metrics (fun _ => 0) ⟨[⟨"focus", 1, [("has_focus", 1)]⟩], 0⟩ 4000).focus_switch_frequency := by
  rw [focus_freq_formula, focus_freq_formula]
  have h2 : max ((2000 - (0 : ℚ)) / 1000) (1 / 1000) = 2 := by
    rw [max_eq_left] <;> norm_num
  have h4 : max ((4000 - (0 : ℚ)) / 1000) (1 / 1000) = 4 := by
    rw [max_eq_left] <;> norm_num
  simp only [h2, h4]
  norm_num

/-- C7 counterexample: two idle events with durations `400` and `-400`
(producible by `record_idle_period(0, 400)` and `record_idle_period(400, 0)`)
at session duration `400` give idle ratio `0` and duration variance `320000`,
so the score is exactly `(1 - 0) * 70 + min(32, 30) = 100` despite the log
containing idle events. -/
theorem idle_pattern_100_with_idle_events :
    compute_idle_pattern
        [⟨"idle", 0, [("duration", 400)]⟩, ⟨"idle", 400, [("duration", -400)]⟩] 400 = 100
    ∧ ([⟨"idle", 0, [("duration", 400)]⟩, ⟨"idle", 400, [("duration", -400)]⟩]
        : List BehavioralEvent) ≠ [] := by
  constructor
  · have hmax : max (400 : ℚ) 1 = 400 := max_eq_left (by norm_num)
    simp only [compute_idle_pattern, compute_variance, dget, List.lookup, hmax]
    norm_num
  · simp

/-- C7 (amended): `idle_pattern_score` equals `100.0` when the log has no
idle events; with at least one idle event all of whose durations are
nonnegative, the score is strictly below `100.0`.  (With a negative duration,
as recorded by `record_idle_period` with `end < start`, the score can reach
`100` exactly — see the counterexample.) -/
theorem idle_pattern_100_iff_no_idle :
    (∀ s : ℚ, compute_idle_pattern [] s = 100)
    ∧ (∀ (es : List BehavioralEvent) (s : ℚ), es ≠ [] →
        (∀ e ∈ es, 0 ≤ dget e.data "duration") →
        compute_idle_pattern es s < 100) := by
  constructor
  · intro s; rfl
  · intro es s hne hnn
    have hne' : ¬ es.isEmpty := by simpa [List.isEmpty_iff] using hne
    simp only [compute_idle_pattern]
    rw [if_neg hne']
    have hnn' : ∀ x ∈ es.map (fun e => dget e.data "duration"), 0 ≤ x := by
      intro x hx
      rcases List.mem_map.mp hx with ⟨e, he, rfl⟩
      exact hnn e he
    have hS : 0 ≤ (es.map (fun e => dget e.data "duration")).sum := List.sum_nonneg hnn'
    have hden : (0 : ℚ) < max s 1 := lt_of_lt_of_le one_pos (le_max_right s 1)
    have hbonus : min (compute_variance (es.map (fun e => dget e.data "duration")) / 10000) 30
        ≤ 30 := min_le_right _ _
    rcases lt_or_eq_of_le hS with hpos | hzero
    · have hfrac : 0 < (es.map (fun e => dget e.data "duration")).sum / max s 1 :=
        div_pos hpos hden
      have hbase : (1 - (es.map (fun e => dget e.data "duration")).sum / max s 1) * 70 < 70 := by
        nlinarith
      linarith
    · have hall : ∀ x ∈ es.map (fun e => dget e.data "duration"), x = 0 :=
        sum_zero_all_zero _ hnn' hzero.symm
      have hvar : compute_variance (es.map (fun e => dget e.data "duration")) = 0 :=
        compute_variance_zeros _ hall
      rw [← hzero, hvar, zero_div]
      have hmin0 : min ((0 : ℚ) / 10000) 30 = 0 := by
        rw [zero_div]; exact min_eq_left (by norm_num)
      rw [hmin0]
      norm_num

/-- C7 witness: a single idle event with nonnegative duration `5` at session
duration `77` scores strictly below `100`. -/
theorem idle_pattern_lt_100_instance :
    compute_idle_pattern [⟨"idle", 0, [("duration", 5)]⟩] 77 < 100 :=
  idle_pattern_100_iff_no_idle.2 [⟨"idle", 0, [("duration", 5)]⟩] 77 (by simp)
    (by intro e he; simp [List.mem_singleton] at he; subst he; norm_num [dget, List.lookup])

/-- Count shift: the direction-change fold from counter `c` counts `c` more
changes than the fold from counter `0`. -/
theorem scroll_snd_shift (l : List ℚ) : ∀ (d : ℤ) (c : ℕ),
    (l.foldl scrollStep (d, c)).2 = c + (l.foldl scrollStep (d, 0)).2 := by
  induction l with
  | nil => intro d c; simp
  | cons x t ih =>
    intro d c
    simp only [List.foldl_cons]
    by_cases hc : d ≠ 0 ∧ scrollDir x ≠ d
    · have h1 : scrollStep (d, c) x = (scrollDir x, c + 1) := by
        simp only [scrollStep]; rw [if_pos hc]
      have h2 : scrollStep (d, 0) x = (scrollDir x, 0 + 1) := by
        simp only [scrollStep]; rw [if_pos hc]
      rw [h1, h2, ih (scrollDir x) (c + 1), ih (scrollDir x) (0 + 1)]
      omega
    · have h1 : scrollStep (d, c) x = (scrollDir x, c) := by
        simp only [scrollStep]; rw [if_neg hc]
      have h2 : scrollStep (d, 0) x = (scrollDir x, 0) := by
        simp only [scrollStep]; rw [if_neg hc]
      rw [h1, h2, ih (scrollDir x) c]

/-- C10: `_compute_scroll_pattern` classifies a zero `delta_y` as downward
(direction `-1`); consequently a zero delta between two positive deltas adds
exactly two direction changes, and a zero delta between two negative deltas
adds none. -/
theorem scroll_zero_delta_downward :
    scrollDir 0 = -1
    ∧ (∀ (xs ys : List ℚ) (a b : ℚ), 0 < a → 0 < b →
        directionChanges (xs ++ a :: 0 :: b :: ys)
          = directionChanges (xs ++ a :: b :: ys) + 2)
    ∧ (∀ (xs ys : List ℚ) (a b : ℚ), a < 0 → b < 0 →
        directionChanges (xs ++ a :: 0 :: b :: ys)
          = directionChanges (xs ++ a :: b :: ys)) := by
  have hdir0 : scrollDir (0 : ℚ) = -1 := by
    unfold scrollDir; rw [if_neg (lt_irrefl (0 : ℚ))]
  refine ⟨hdir0, ?_, ?_⟩
  · intro xs ys a b ha hb
    have hdira : scrollDir a = 1 := by unfold scrollDir; rw [if_pos ha]
    have hdirb : scrollDir b = 1 := by unfold scrollDir; rw [if_pos hb]
    unfold directionChanges
    rw [List.foldl_append, List.foldl_append]
    rcases hxs : xs.foldl scrollStep (0, 0) with ⟨d, c⟩
    simp only [List.foldl_cons]
    rcases h1 : scrollStep (d, c) a with ⟨d1, c1⟩
    have hd1 : d1 = 1 := by
      have hfst := congrArg Prod.fst h1
      simp only [scrollStep] at hfst
      rw [hdira] at hfst
      exact hfst.symm
    subst hd1
    have h2 : scrollStep (1, c1) 0 = (-1, c1 + 1) := by
      simp only [scrollStep, hdir0]; norm_num
    have h3 : scrollStep (-1, c1 + 1) b = (1, c1 + 1 + 1) := by
      simp only [scrollStep, hdirb]; norm_num
    have h4 : scrollStep (1, c1) b = (1, c1) := by
      simp only [scrollStep, hdirb]; norm_num
    rw [h2, h3, h4]
    have hL := scroll_snd_shift ys 1 (c1 + 1 + 1)
    have hR := scroll_snd_shift ys 1 c1
    omega
  · intro xs ys a b ha hb
    have hdira : scrollDir a = -1 := by
      unfold scrollDir; rw [if_neg (by linarith : ¬ a > 0)]
    have hdirb : scrollDir b = -1 := by
      unfold scrollDir; rw [if_neg (by linarith : ¬ b > 0)]
    unfold directionChanges
    rw [List.foldl_append, List.foldl_append]
    rcases hxs : xs.foldl scrollStep (0, 0) with ⟨d, c⟩
    simp only [List.foldl_cons]
    rcases h1 : scrollStep (d, c) a with ⟨d1, c1⟩
    have hd1 : d1 = -1 := by
      have hfst := congrArg Prod.fst h1
      simp only [scrollStep] at hfst
      rw [hdira] at hfst
      exact hfst.symm
    subst hd1
    have h2 : scrollStep (-1, c1) 0 = (-1, c1) := by
      simp only [scrollStep, hdir0]; norm_num
    have h3 : scrollStep (-1, c1) b = (-1, c1) := by
      simp only [scrollStep, hdirb]; norm_num
    rw [h2, h3]

/-- C10 witness: concrete three-event logs, zero delta between positives
counting two changes and between negatives counting none. -/
theorem scroll_zero_delta_downward_instance :
    scrollDir 0 = -1
    ∧ directionChanges [1, 0, 1] = directionChanges [1, 1] + 2
    ∧ directionChanges [-1, 0, -1] = directionChanges [-1, -1] :=
  ⟨scroll_zero_delta_downward.1,
   by simpa using scroll_zero_delta_downward.2.1 [] [] 1 1 (by norm_num) (by norm_num),
   by simpa using scroll_zero_delta_downward.2.2 [] [] (-1) (-1) (by norm_num) (by norm_num)⟩

/-- C8: with `nonce = [0x00; 32]` and `hash = [0, 1, ..., 31]`, the
initial-mix pass of `solve_challenge` yields `r[i] = hash[i] XOR hash[(i+13) mod 32]`
for every `i`, before the four diffusion rounds run. -/
theorem initial_mix_zero_nonce :
    challengeInit (List.replicate 32 0) (List.range 32)
      = some ((List.range 32).map (fun i =>
          (List.range 32).getD i 0 ^^^ (List.range 32).getD ((i + 13) % 32) 0)) := by
  decide

set_option maxRecDepth 4000 in
/-- C4: `solve_challenge` performs no length validation.  With a 33-byte
nonce (32 zeros then `0xFF`) it silently ignores the extra byte and returns
exactly the result for the 32-byte prefix instead of failing with an
`InvalidLength` error; a 31-byte nonce raises `IndexError` (modelled `none`),
not an `InvalidLength` error. -/
theorem solve_challenge_truncates_long_nonce :
    solve_challenge (List.replicate 32 0 ++ [255]) (List.range 32)
        = solve_challenge (List.replicate 32 0) (List.range 32)
    ∧ (solve_challenge (List.replicate 32 0 ++ [255]) (List.range 32)).isSome = true
    ∧ solve_challenge (List.replicate 31 0) (List.range 32) = none := by
  refine ⟨?_, ?_, ?_⟩ <;> decide

/-- C1: on 32-byte inputs `solve_challenge` returns exactly the 32-byte
buffer specified by §4.4: the initial mix
`r[i] = ((nonce[i] XOR hash[i]) + nonce[(i+7) mod 32]) mod 256 XOR hash[(i+13) mod 32]`
computed for `i = 0..31` in ascending order, followed by four diffusion
rounds `round = 0..3`, each updating
`r[i] = (r[i] + ((r[(i+31) mod 32] * r[(i+1) mod 32]) mod 256) + round) mod 256`
in place in ascending index order, reads observing the updates already made
earlier in the same round. -/
theorem solve_challenge_matches_claim (nonce fingerprint_hash : List ℕ)
    (hn : nonce.length = 32) (hh : fingerprint_hash.length = 32) :
    solve_challenge nonce fingerprint_hash = some (claimSolve nonce fingerprint_hash)
    ∧ (claimSolve nonce fingerprint_hash).length = 32 := by
  constructor
  · unfold solve_challenge
    rw [challengeInit_eq nonce fingerprint_hash hn hh, Option.map_some']
    rw [diffuse_eq_claimRounds]
    rfl
  · exact claimSolve_length nonce fingerprint_hash

/-- C1 witness: the theorem applied at the concrete 32-byte pair
`nonce = [5; 32]`, `hash = [0, 1, ..., 31]`. -/
theorem solve_challenge_matches_claim_instance :
    solve_challenge (List.replicate 32 5) (List.range 32)
        = some (claimSolve (List.replicate 32 5) (List.range 32))
    ∧ (claimSolve (List.replicate 32 5) (List.range 32)).length = 32 :=
  solve_challenge_matches_claim (List.replicate 32 5) (List.range 32) (by simp) (by simp)

/-- C2: `generate_fingerprint` serializes the metrics fields in the exact
order variance, entropy, scroll score, focus frequency, idle score,
total events, session duration into a 52-byte big-endian buffer with no
padding (six IEEE-754 binary64 fields and one u32 field) and returns the
SHA-256 digest of that buffer, a 32-byte hash. -/
theorem generate_fingerprint_serialization (m : MetricsBits)
    (hte : m.total_events < 4294967296)
    (_h1 : m.keystroke_timing_variance < 18446744073709551616)
    (_h2 : m.mouse_movement_entropy < 18446744073709551616)
    (_h3 : m.scroll_pattern_score < 18446744073709551616)
    (_h4 : m.focus_switch_frequency < 18446744073709551616)
    (_h5 : m.idle_pattern_score < 18446744073709551616)
    (_h6 : m.session_duration_ms < 18446744073709551616) :
    packMetrics m = some (specMetricsBuffer m)
    ∧ (specMetricsBuffer m).length = 52
    ∧ fingerprint_hash_bytes m = some (sha256 (specMetricsBuffer m))
    ∧ (sha256 (specMetricsBuffer m)).length = 32 := by
  have hpack : packMetrics m = some (specMetricsBuffer m) := by
    unfold packMetrics specMetricsBuffer
    rw [if_pos hte]
  refine ⟨hpack, ?_, ?_, ?_⟩
  · simp [specMetricsBuffer, be64Bytes, be32Bytes]
  · unfold fingerprint_hash_bytes
    rw [hpack, Option.map_some']
  · simp [sha256, be32Bytes]

/-- C2 witness: the theorem applied at an explicit metrics record (all six
float bit patterns zero, 7 events, which fit the required ranges). -/
theorem generate_fingerprint_serialization_instance :
    packMetrics ⟨0, 0, 0, 0, 0, 7, 0⟩ = some (specMetricsBuffer ⟨0, 0, 0, 0, 0, 7, 0⟩)
    ∧ (specMetricsBuffer ⟨0, 0, 0, 0, 0, 7, 0⟩).length = 52
    ∧ fingerprint_hash_bytes ⟨0, 0, 0, 0, 0, 7, 0⟩
        = some (sha256 (specMetricsBuffer ⟨0, 0, 0, 0, 0, 7, 0⟩))
    ∧ (sha256 (specMetricsBuffer ⟨0, 0, 0, 0, 0, 7, 0⟩)).length = 32 :=
  generate_fingerprint_serialization ⟨0, 0, 0, 0, 0, 7, 0⟩ (by norm_num) (by norm_num)
    (by norm_num) (by norm_num) (by norm_num) (by norm_num) (by norm_num)

end YourFun

